import Mathlib

/-!
Shallow embedding of the Prodigy content-agent bot (`src/agent/bot.py`):
the command dispatcher, the aggregation logic (`cmd_stats`, `cmd_week`),
the argument-parsing handlers (`cmd_script`, `cmd_reel`, `cmd_hooks`,
`cmd_analyze`, `cmd_cover`, `cmd_add`), and the long-polling ingestion
loop (`run`).  External collaborators (Telegram transport, Claude and
DALL-E generation clients, the JSON content store) are kept opaque:
handlers return a structured description of the reply they would produce
instead of performing the external call, and the store is an explicit
list of records threaded through the functions.
-/

namespace ProdigyBot

/-! ### Python string primitives, modelled over `List Char` -/

/-- Whitespace test used by Python's `str.strip` (restricted to the ASCII
whitespace actually occurring in the bot's inputs). -/
def isPySpace (c : Char) : Bool := c.isWhitespace

/-- `str.strip` on a character list: drop whitespace on both ends. -/
def pyStripList (cs : List Char) : List Char :=
  ((cs.dropWhile isPySpace).reverse.dropWhile isPySpace).reverse

/-- Python `s.strip()`. -/
def pyStrip (s : String) : String := String.mk (pyStripList s.toList)

/-- Python `str.upper` on one character: ASCII letters and the Cyrillic
range `а`–`я` (plus `ё`) are uppercased, everything else is unchanged.
This covers the bot's whole input domain (format labels are Cyrillic
`А`–`З`). -/
def pyUpperChar (c : Char) : Char :=
  let n := c.toNat
  if 0x61 ≤ n ∧ n ≤ 0x7A then Char.ofNat (n - 0x20)
  else if 0x430 ≤ n ∧ n ≤ 0x44F then Char.ofNat (n - 0x20)
  else if n = 0x451 then Char.ofNat 0x401
  else c

/-- Python `s.upper()`. -/
def pyUpper (s : String) : String := String.mk (s.toList.map pyUpperChar)

/-- Python `str.lower` on one character (inverse direction of
`pyUpperChar`). -/
def pyLowerChar (c : Char) : Char :=
  let n := c.toNat
  if 0x41 ≤ n ∧ n ≤ 0x5A then Char.ofNat (n + 0x20)
  else if 0x410 ≤ n ∧ n ≤ 0x42F then Char.ofNat (n + 0x20)
  else if n = 0x401 then Char.ofNat 0x451
  else c

/-- Python `s.lower()`. -/
def pyLower (s : String) : String := String.mk (s.toList.map pyLowerChar)

/-- Python `s.split(sep)` (unbounded) on a character list.  Like Python,
the empty input yields one empty piece, and adjacent separators yield
empty pieces. -/
def splitOnChar (sep : Char) : List Char → List (List Char)
  | [] => [[]]
  | c :: rest =>
    if c = sep then [] :: splitOnChar sep rest
    else
      match splitOnChar sep rest with
      | [] => [[c]]
      | g :: gs => (c :: g) :: gs

/-- Python `s.split(sep, 1)`: at most one split, at the first occurrence
of the separator. -/
def splitMax1 (sep : Char) (s : String) : List String :=
  match splitOnChar sep s.toList with
  | [] => [s]
  | c :: rest =>
    if rest = [] then [String.mk c]
    else [String.mk c, String.mk (List.intercalate [sep] rest)]

/-- Decimal digits to a natural number (what Python's `int` does on an
all-digit string). -/
def digitsToNat (cs : List Char) : Nat :=
  cs.foldl (fun n c => n * 10 + (c.toNat - '0'.toNat)) 0

/-- The `_int` helper of `cmd_add`:
`s = s.strip(); return int(s) if s.isdigit() else 0`. -/
def pyInt (s : String) : Nat :=
  let t := pyStripList s.toList
  if t ≠ [] ∧ t.all Char.isDigit then digitsToNat t else 0

/-! ### Data model -/

/-- The fixed-shape `metrics` structure of a content record. -/
structure Metrics where
  views : Nat
  likes : Nat
  saves : Nat
  shares : Nat
  comments : Nat
  reach : Nat
  days_live : Nat
deriving Repr, DecidableEq

/-- One logged reel (content record).  Display-only fields of the JSON
record (`format_name`, `notes`) are derived data and omitted; `id` and
`date` are the creation-time stamps. -/
structure Reel where
  id : String
  date : String
  format : String
  hook : String
  metrics : Metrics
deriving Repr, DecidableEq

/-- Modelled from the spec: the key set of `FORMAT_NAMES` lives in
`main.py`, which is not under `src/`; the spec fixes it as a closed set
of 8 format labels, and the bot's help text and `COVER_STYLES` table in
`src/agent/bot.py` list them as `А Б В Г Д Е Ж З`.  The display names
(the dict's values) are never needed by the verified properties and are
omitted. -/
def FORMAT_NAMES : List String := ["А", "Б", "В", "Г", "Д", "Е", "Ж", "З"]

/-! ### Aggregation engine: `cmd_stats` -/

/-- One step of the `fmt_stats` accumulation in `cmd_stats`:
`fmt_stats.setdefault(fmt, {"count": 0, "views": 0})` followed by the
two `+=` updates, on an insertion-ordered association list
`(format, count, views-sum)`. -/
def bump (acc : List (String × Nat × Nat)) (fmt : String) (views : Nat) :
    List (String × Nat × Nat) :=
  match acc with
  | [] => [(fmt, 1, views)]
  | (f, c, v) :: rest =>
    if f = fmt then (f, c + 1, v + views) :: rest
    else (f, c, v) :: bump rest fmt views

/-- The `fmt_stats` dict of `cmd_stats` after the loop over `reels`,
as an insertion-ordered association list. -/
def fmtStatsList (reels : List Reel) : List (String × Nat × Nat) :=
  reels.foldl (fun acc r => bump acc r.format r.metrics.views) []

/-- Python's `<` on strings: lexicographic comparison by code point. -/
def pyStrLtList : List Char → List Char → Bool
  | [], [] => false
  | [], _ :: _ => true
  | _ :: _, [] => false
  | x :: xs, y :: ys =>
    if x.toNat < y.toNat then true
    else if y.toNat < x.toNat then false
    else pyStrLtList xs ys

/-- Python `a < b` on strings. -/
def pyStrLt (a b : String) : Bool := pyStrLtList a.toList b.toList

/-- Ordered insertion by category label (Python's `sorted` on the dict
items; keys are unique, so comparing keys alone matches tuple order). -/
def insertByLabel (x : String × Nat × Nat) :
    List (String × Nat × Nat) → List (String × Nat × Nat)
  | [] => [x]
  | y :: ys => if pyStrLt x.1 y.1 then x :: y :: ys else y :: insertByLabel x ys

/-- `sorted(fmt_stats.items())`. -/
def sortByLabel : List (String × Nat × Nat) → List (String × Nat × Nat)
  | [] => []
  | x :: xs => insertByLabel x (sortByLabel xs)

/-- The per-category summary of `cmd_stats`: for each category (ordered
by label) its count and average views, where
`avg = s["views"] // s["count"] if s["count"] else 0`. -/
def statsSummary (reels : List Reel) : List (String × Nat × Nat) :=
  (sortByLabel (fmtStatsList reels)).map
    (fun e => (e.1, e.2.1, if e.2.1 = 0 then 0 else e.2.2 / e.2.1))

/-- Stable insertion for a views-descending order: `x` is placed before
the first element whose views do not exceed `x`'s, so earlier elements
win ties — the order produced by Python's stable
`sorted(..., reverse=True)`. -/
def insertDesc (x : Reel) : List Reel → List Reel
  | [] => [x]
  | y :: ys =>
    if x.metrics.views < y.metrics.views then y :: insertDesc x ys
    else x :: y :: ys

/-- `sorted(reels, key=views, reverse=True)` (stable, views descending). -/
def sortDescViews : List Reel → List Reel
  | [] => []
  | x :: xs => insertDesc x (sortDescViews xs)

/-- The top-3 ranking of `cmd_stats`:
`sorted(reels, key=views, reverse=True)[:3]`. -/
def statsTop (reels : List Reel) : List Reel := (sortDescViews reels).take 3

/-- Structured result of `cmd_stats`: either the "no data" reply or the
table (per-category summary plus top-3 ranking). -/
inductive StatsResult where
  | noData
  | table (summary : List (String × Nat × Nat)) (top : List Reel)
deriving Repr, DecidableEq

/-- `cmd_stats` over the `reels` list of the store. -/
def cmdStats (reels : List Reel) : StatsResult :=
  if reels.isEmpty then .noData
  else .table (statsSummary reels) (statsTop reels)

/-! ### Aggregation engine: `cmd_week`

Dates are modelled as day numbers counted from a Monday epoch (Python's
proleptic ordinal minus 1: ordinal 1, January 1 of year 1, is a Monday),
so `weekday(d) = d % 7` with `0 = Monday`, matching
`datetime.weekday()`. -/

/-- `start_of_week = today - timedelta(days=today.weekday())`. -/
def startOfWeek (today : Nat) : Nat := today - today % 7

/-- The static schedule table of `cmd_week`:
(offset from Monday, day name, recommended format, purpose). -/
def schedule : List (Nat × String × String × String) :=
  [(0, "Понедельник", "Д или Ж", "Юмор / POV — виральность и охват"),
   (2, "Среда", "А", "Боль — острый хук, проблема аудитории"),
   (4, "Пятница", "Е или Б", "Провокация / Образование — споры, сохранения"),
   (6, "Воскресенье", "В", "За кулисами — человечность, доверие")]

/-- One line of the weekly schedule output. -/
structure Slot where
  date : Nat
  dayName : String
  fmt : String
  purpose : String
  isToday : Bool
deriving Repr, DecidableEq

/-- `cmd_week`: four slots at offsets {0, 2, 4, 6} from the Monday of
the current week, each with its static format/purpose pair; the slot
whose date equals today gets the "← сегодня" marker. -/
def cmdWeek (today : Nat) : List Slot :=
  schedule.map (fun e =>
    { date := startOfWeek today + e.1
      dayName := e.2.1
      fmt := e.2.2.1
      purpose := e.2.2.2
      isToday := decide (startOfWeek today + e.1 = today) })

/-! ### Handlers with argument parsing -/

/-- Result of `cmd_script`: either the unknown-format validation message
or the generation action for the chosen format (the `ask_claude` call
and its prompt are opaque).  Note there is no usage branch: an empty
argument falls through to the default format. -/
inductive ScriptReply where
  | unknownFormat (fmt : String)
  | generate (fmt : String)
deriving Repr, DecidableEq

/-- `cmd_script`: `fmt = fmt_arg.strip().upper() if fmt_arg else "А"`,
then the membership check against `FORMAT_NAMES`. -/
def cmdScript (fmtArg : String) : ScriptReply :=
  let fmt := if fmtArg = "" then "А" else pyUpper (pyStrip fmtArg)
  if FORMAT_NAMES.contains fmt then .generate fmt else .unknownFormat fmt

/-- Result of the topic-based handlers (`cmd_reel`, `cmd_hooks`,
`cmd_analyze`): usage text on a blank argument, otherwise the
generation action on the topic. -/
inductive TopicReply where
  | usage
  | generate (topic : String)
deriving Repr, DecidableEq

/-- `cmd_reel`: usage if `not topic.strip()`, else generate. -/
def cmdReel (topic : String) : TopicReply :=
  if pyStrip topic = "" then .usage else .generate topic

/-- `cmd_hooks`: usage if `not topic.strip()`, else generate. -/
def cmdHooks (topic : String) : TopicReply :=
  if pyStrip topic = "" then .usage else .generate topic

/-- `cmd_analyze`: usage if `not description.strip()`, else generate. -/
def cmdAnalyze (description : String) : TopicReply :=
  if pyStrip description = "" then .usage else .generate description

/-- Result of `cmd_cover`: usage text, the empty-hook validation
message, the missing-API-key message, or the generation action with the
resolved format and hook (the DALL-E call and photo send are opaque). -/
inductive CoverReply where
  | usage
  | emptyHook
  | noApiKey
  | generated (fmt : String) (hook : String)
deriving Repr, DecidableEq

/-- The parts list of `cmd_cover`:
`[p.strip() for p in args.split("|", 1)]`. -/
def coverParts (args : String) : List String :=
  (splitMax1 '|' args).map pyStrip

/-- `cmd_cover` (with the presence of `OPENAI_API_KEY` as an explicit
boolean input): parse format and hook, silently fall back to format "А"
when the format token is unknown, then the hook and API-key checks. -/
def cmdCover (hasApiKey : Bool) (args : String) : CoverReply :=
  if pyStrip args = "" then .usage
  else
    let parts := coverParts args
    let fh : String × String :=
      match parts with
      | [a, b] => (pyUpper a, b)
      | _ => ("А", pyStrip args)
    let fmt := if FORMAT_NAMES.contains fh.1 then fh.1 else "А"
    if fh.2 = "" then .emptyHook
    else if ¬ hasApiKey then .noApiKey
    else .generated fmt fh.2

/-- Result of `cmd_add`: usage text, the too-few-fields message, the
unknown-format validation message, the empty-hook message, or success
with the record that was appended. -/
inductive AddReply where
  | usage
  | tooFew
  | unknownFormat (fmt : String)
  | emptyHook
  | added (r : Reel)
deriving Repr, DecidableEq

/-- The parts list of `cmd_add`:
`[p.strip() for p in args.split("|")]`. -/
def addParts (args : String) : List String :=
  (splitOnChar '|' args.toList).map (fun cs => pyStrip (String.mk cs))

/-- The category field of a `cmd_add` invocation: `parts[0].upper()`
(the parts list is never empty). -/
def addFmt (args : String) : String := pyUpper ((addParts args).headD "")

/-- `_int(parts[i]) if len(parts) > i else 0`. -/
def partInt (parts : List String) (i : Nat) : Nat := pyInt (parts.getD i "")

/-- `cmd_add`: validation of the format label and hook, permissive
parsing of the five metric fields, and the append to `data["reels"]`
(returned as the new store; `save_data` is opaque).  The creation-time
stamps `nowId` and `nowDate` stand for the `datetime.now()` values. -/
def cmdAdd (nowId nowDate : String) (args : String) (reels : List Reel) :
    AddReply × List Reel :=
  if pyStrip args = "" then (.usage, reels)
  else
    let parts := addParts args
    if parts.length < 2 then (.tooFew, reels)
    else
      let fmt := addFmt args
      if ¬ FORMAT_NAMES.contains fmt then (.unknownFormat fmt, reels)
      else
        let hook := parts.getD 1 ""
        if hook = "" then (.emptyHook, reels)
        else
          let reel : Reel :=
            { id := nowId
              date := nowDate
              format := fmt
              hook := hook
              metrics :=
                { views := partInt parts 2
                  likes := partInt parts 3
                  saves := partInt parts 4
                  shares := partInt parts 5
                  comments := partInt parts 6
                  reach := 0
                  days_live := 1 } }
          (.added reel, reels ++ [reel])

/-! ### Dispatcher -/

/-- The handlers of the command table, as a closed enumeration. -/
inductive Handler where
  | start | help | script | reel | hook | hooks | cover
  | plan | week | stats | trends | analyze | add
deriving Repr, DecidableEq

/-- The `commands` dict of `dispatch`: token → handler. -/
def commandTable : List (String × Handler) :=
  [("/start", .start), ("/help", .help), ("/script", .script),
   ("/reel", .reel), ("/hook", .hook), ("/hooks", .hooks),
   ("/cover", .cover), ("/plan", .plan), ("/week", .week),
   ("/stats", .stats), ("/trends", .trends), ("/analyze", .analyze),
   ("/add", .add)]

/-- Result of `dispatch`: no reply (not a command), a call into a known
handler with its argument string, or the unknown-command reply text. -/
inductive DispatchReply where
  | noReply
  | call (h : Handler) (args : String)
  | unknown (msg : String)
deriving Repr, DecidableEq

/-- The unknown-command reply:
`f"Неизвестная команда '{cmd}'. Напиши /help"`. -/
def unknownMsg (cmd : String) : String :=
  "Неизвестная команда \x27" ++ cmd ++ "\x27. Напиши /help"

/-- The command token of `dispatch`:
`parts[0].lower().split("@")[0]` of the stripped text. -/
def cmdToken (text : String) : String :=
  let t := pyStrip text
  let parts := splitMax1 ' ' t
  String.mk ((pyLower (parts.headD "")).toList.takeWhile (fun c => c ≠ '@'))

/-- The argument string of `dispatch`:
`parts[1] if len(parts) > 1 else ""`. -/
def cmdArgs (text : String) : String := (splitMax1 ' ' (pyStrip text)).getD 1 ""

/-- `dispatch`: strip, reject non-commands (`text.startswith("/")` is
the test that the first character is the command prefix), split off the
first token, case-fold it and strip a `@botname` suffix, then look it
up in the command table; unknown tokens get the fixed-shape guidance
reply. -/
def dispatch (text : String) : DispatchReply :=
  let t := pyStrip text
  if t.toList.headD ' ' = '/' then
    match commandTable.lookup (cmdToken text) with
    | some h => .call h (cmdArgs text)
    | none => .unknown (unknownMsg (cmdToken text))
  else .noReply

/-! ### Ingestion loop (`run`) -/

/-- One inbound update: its identifier, the message text (empty when
missing) and the chat id (`None` when missing; Python also treats `0`
as missing via truthiness). -/
structure Upd where
  id : Nat
  text : String
  chatId : Option Int
deriving Repr, DecidableEq

/-- Python truthiness failure of `chat_id`: missing or zero. -/
def falsyChat : Option Int → Bool
  | none => true
  | some n => n == 0

/-- State of the polling loop: the cursor, the ghost trace of every
value assigned to the cursor, and the ghost log of dispatched messages
as (cursor value at dispatch time, update id) pairs. -/
structure LoopState where
  offset : Nat
  trace : List Nat
  dispatched : List (Nat × Nat)
deriving Repr, DecidableEq

/-- The loop body for one update: `offset = upd["update_id"] + 1` comes
first, then messages with empty text or falsy chat id are skipped, and
the rest are dispatched (with the cursor already advanced). -/
def stepUpd (s : LoopState) (u : Upd) : LoopState :=
  let off := u.id + 1
  let s' : LoopState := { s with offset := off, trace := s.trace ++ [off] }
  if u.text = "" ∨ falsyChat u.chatId then s'
  else { s' with dispatched := s'.dispatched ++ [(off, u.id)] }

/-- Processing one fetched batch: the `for upd in updates` loop. -/
def processBatch (s : LoopState) (us : List Upd) : LoopState :=
  us.foldl stepUpd s

/-- The loop's initial state: `offset = 0`, nothing dispatched. -/
def initState : LoopState := { offset := 0, trace := [], dispatched := [] }

/-- Running the ingestion loop over a finite sequence of fetched
batches. -/
def runLoop (batches : List (List Upd)) : LoopState :=
  batches.foldl processBatch initState

/-- Concatenation of all fetched batches, in fetch order. -/
def concatAll : List (List Upd) → List Upd
  | [] => []
  | b :: bs => b ++ concatAll bs

/-! ### Concrete records for the worked `cmd_stats` example -/

/-- First example record: category `А`, 100 views. -/
def exA1 : Reel :=
  { id := "r1", date := "d", format := "А", hook := "h1",
    metrics := ⟨100, 0, 0, 0, 0, 0, 1⟩ }

/-- Second example record: category `А`, 200 views. -/
def exA2 : Reel :=
  { id := "r2", date := "d", format := "А", hook := "h2",
    metrics := ⟨200, 0, 0, 0, 0, 0, 1⟩ }

/-- Third example record: category `Б`, 50 views. -/
def exB1 : Reel :=
  { id := "r3", date := "d", format := "Б", hook := "h3",
    metrics := ⟨50, 0, 0, 0, 0, 0, 1⟩ }

/-! ## Helper lemmas -/

theorem mem_insertDesc (x a : Reel) :
    ∀ (l : List Reel), a ∈ insertDesc x l ↔ a = x ∨ a ∈ l
  | [] => by simp [insertDesc]
  | y :: ys => by
    unfold insertDesc
    split
    · rw [List.mem_cons, mem_insertDesc x a ys, List.mem_cons]
      tauto
    · rw [List.mem_cons, List.mem_cons]

theorem pairwise_insertDesc (x : Reel) :
    ∀ (l : List Reel),
      l.Pairwise (fun a b => b.metrics.views ≤ a.metrics.views) →
      (insertDesc x l).Pairwise (fun a b => b.metrics.views ≤ a.metrics.views)
  | [], _ => by simp [insertDesc]
  | y :: ys, h => by
    unfold insertDesc
    rcases List.pairwise_cons.mp h with ⟨hy, hys⟩
    split
    · rename_i hlt
      refine List.pairwise_cons.mpr ⟨?_, pairwise_insertDesc x ys hys⟩
      intro z hz
      rcases (mem_insertDesc x z ys).mp hz with rfl | hz'
      · exact Nat.le_of_lt hlt
      · exact hy z hz'
    · rename_i hge
      refine List.pairwise_cons.mpr ⟨?_, h⟩
      intro z hz
      rcases List.mem_cons.mp hz with rfl | hz'
      · exact Nat.le_of_not_lt hge
      · exact Nat.le_trans (hy z hz') (Nat.le_of_not_lt hge)

theorem sortDescViews_pairwise :
    ∀ (l : List Reel),
      (sortDescViews l).Pairwise (fun a b => b.metrics.views ≤ a.metrics.views)
  | [] => by simp [sortDescViews]
  | x :: xs => pairwise_insertDesc x _ (sortDescViews_pairwise xs)

theorem filter_insertDesc_eq (v : Nat) (x : Reel) (hx : x.metrics.views = v) :
    ∀ (l : List Reel),
      (insertDesc x l).filter (fun r => r.metrics.views == v)
        = x :: l.filter (fun r => r.metrics.views == v)
  | [] => by simp [insertDesc, hx]
  | y :: ys => by
    unfold insertDesc
    split
    · rename_i hlt
      have hy : (y.metrics.views == v) = false := by
        simp only [beq_eq_false_iff_ne, ne_eq]
        omega
      simp [List.filter_cons, hy, filter_insertDesc_eq v x hx ys]
    · simp [List.filter_cons, hx]

theorem filter_insertDesc_ne (v : Nat) (x : Reel) (hx : ¬ x.metrics.views = v) :
    ∀ (l : List Reel),
      (insertDesc x l).filter (fun r => r.metrics.views == v)
        = l.filter (fun r => r.metrics.views == v)
  | [] => by simp [insertDesc, hx]
  | y :: ys => by
    unfold insertDesc
    split
    · simp [List.filter_cons, filter_insertDesc_ne v x hx ys]
    · simp [List.filter_cons, hx]

theorem sortDescViews_filter (v : Nat) :
    ∀ (l : List Reel),
      (sortDescViews l).filter (fun r => r.metrics.views == v)
        = l.filter (fun r => r.metrics.views == v)
  | [] => rfl
  | x :: xs => by
    have hs : sortDescViews (x :: xs) = insertDesc x (sortDescViews xs) := rfl
    by_cases hx : x.metrics.views = v
    · rw [hs, filter_insertDesc_eq v x hx, sortDescViews_filter v xs,
        List.filter_cons]
      simp [hx]
    · rw [hs, filter_insertDesc_ne v x hx, sortDescViews_filter v xs,
        List.filter_cons]
      simp [hx]

theorem bump_count_pos (fmt : String) (views : Nat) :
    ∀ (acc : List (String × Nat × Nat)), (∀ e ∈ acc, 0 < e.2.1) →
      ∀ e ∈ bump acc fmt views, 0 < e.2.1
  | [], _ => by simp [bump]
  | (f, c, v) :: rest, h => by
    unfold bump
    split
    · intro e he
      rcases List.mem_cons.mp he with rfl | he'
      · exact Nat.succ_pos _
      · exact h e (List.mem_cons_of_mem _ he')
    · intro e he
      rcases List.mem_cons.mp he with rfl | he'
      · exact h _ (List.mem_cons_self _ _)
      · exact bump_count_pos fmt views rest
          (fun e' he'' => h e' (List.mem_cons_of_mem _ he'')) e he'

theorem fmtStatsList_count_pos (reels : List Reel) :
    ∀ e ∈ fmtStatsList reels, 0 < e.2.1 := by
  suffices h : ∀ (l : List Reel) (acc : List (String × Nat × Nat)),
      (∀ e ∈ acc, 0 < e.2.1) →
      ∀ e ∈ l.foldl (fun acc r => bump acc r.format r.metrics.views) acc,
        0 < e.2.1 by
    exact h reels [] (by simp)
  intro l
  induction l with
  | nil => exact fun acc h e he => h e he
  | cons r rest ih => exact fun acc h => ih _ (bump_count_pos _ _ acc h)

theorem mem_insertByLabel (x a : String × Nat × Nat) :
    ∀ (l : List (String × Nat × Nat)), a ∈ insertByLabel x l ↔ a = x ∨ a ∈ l
  | [] => by simp [insertByLabel]
  | y :: ys => by
    unfold insertByLabel
    split
    · rw [List.mem_cons, List.mem_cons]
    · rw [List.mem_cons, mem_insertByLabel x a ys, List.mem_cons]
      tauto

theorem mem_sortByLabel (a : String × Nat × Nat) :
    ∀ (l : List (String × Nat × Nat)), a ∈ sortByLabel l ↔ a ∈ l
  | [] => Iff.rfl
  | x :: xs => by
    have hs : sortByLabel (x :: xs) = insertByLabel x (sortByLabel xs) := rfl
    rw [hs, mem_insertByLabel x a (sortByLabel xs), mem_sortByLabel a xs,
      List.mem_cons]

/-! ## Claim theorems -/

/-- C2: over the records `[А/100, А/200, Б/50]`, `cmd_stats` reports
category `А` with count 2 and average 150, category `Б` with count 1 and
average 50 (integer division), the summary ordered by label (`А` before
`Б`), and the top-3 ranking with views `[200, 100, 50]`. -/
theorem cmdStats_worked_example :
    cmdStats [exA1, exA2, exB1]
      = .table [("А", 2, 150), ("Б", 1, 50)] [exA2, exA1, exB1]
    ∧ (statsTop [exA1, exA2, exB1]).map (fun r => r.metrics.views)
      = [200, 100, 50] := by
  constructor
  · decide
  · decide

/-- C3: for every record collection the top-3 ranking of `cmd_stats` is
sorted by views descending, and records of equal views appear in it in
their original collection order (the filter of the ranking at any views
value is a prefix of the filter of the collection). -/
theorem statsTop_sorted_stable (reels : List Reel) :
    (statsTop reels).Pairwise (fun a b => b.metrics.views ≤ a.metrics.views)
    ∧ ∀ v, (statsTop reels).filter (fun r => r.metrics.views == v)
        <+: reels.filter (fun r => r.metrics.views == v) := by
  constructor
  · exact List.Pairwise.sublist (List.take_sublist 3 _)
      (sortDescViews_pairwise reels)
  · intro v
    have h1 : (statsTop reels).filter (fun r => r.metrics.views == v)
        <+: (sortDescViews reels).filter (fun r => r.metrics.views == v) :=
      (List.take_prefix 3 _).filter _
    rwa [sortDescViews_filter v reels] at h1

/-- C4: `cmd_stats` on the empty collection returns the explicit
"no data" reply; every per-category entry has a positive count, so the
`count = 0` branch of the average computation is unreachable and the
guard can be dropped without changing the summary (no division by zero
is ever performed). -/
theorem cmdStats_empty_no_div_zero :
    cmdStats [] = .noData
    ∧ (∀ (reels : List Reel), ∀ e ∈ fmtStatsList reels, 0 < e.2.1)
    ∧ (∀ (reels : List Reel), statsSummary reels
        = (sortByLabel (fmtStatsList reels)).map
            (fun e => (e.1, e.2.1, e.2.2 / e.2.1))) := by
  refine ⟨rfl, fmtStatsList_count_pos, ?_⟩
  intro reels
  apply List.map_congr_left
  intro e he
  have hpos : 0 < e.2.1 :=
    fmtStatsList_count_pos reels e ((mem_sortByLabel e _).mp he)
  simp [statsSummary, Nat.pos_iff_ne_zero.mp hpos]

/-- Witness for C4: a concrete per-category entry of a concrete
collection, with its positive count. -/
theorem cmdStats_empty_no_div_zero_witness :
    ("А", 2, 300) ∈ fmtStatsList [exA1, exA2, exB1]
    ∧ 0 < (("А", 2, 300) : String × Nat × Nat).2.1 :=
  ⟨by decide,
   cmdStats_empty_no_div_zero.2.1 [exA1, exA2, exB1] ("А", 2, 300) (by decide)⟩

theorem stepUpd_offset (s : LoopState) (u : Upd) :
    (stepUpd s u).offset = u.id + 1 := by
  simp only [stepUpd]
  split <;> rfl

theorem stepUpd_trace (s : LoopState) (u : Upd) :
    (stepUpd s u).trace = s.trace ++ [u.id + 1] := by
  simp only [stepUpd]
  split <;> rfl

theorem stepUpd_dispatched (s : LoopState) (u : Upd) :
    (stepUpd s u).dispatched = s.dispatched
    ∨ (stepUpd s u).dispatched = s.dispatched ++ [(u.id + 1, u.id)] := by
  simp only [stepUpd]
  split
  · exact Or.inl rfl
  · exact Or.inr rfl

theorem foldl_trace :
    ∀ (us : List Upd) (s : LoopState),
      (us.foldl stepUpd s).trace = s.trace ++ us.map (fun u => u.id + 1)
  | [], s => by simp
  | u :: rest, s => by
    rw [List.foldl_cons, foldl_trace rest (stepUpd s u), stepUpd_trace]
    simp

theorem foldl_dispatched_inv :
    ∀ (us : List Upd) (s : LoopState),
      (∀ p ∈ s.dispatched, p.1 = p.2 + 1) →
      ∀ p ∈ (us.foldl stepUpd s).dispatched, p.1 = p.2 + 1
  | [], _, h => h
  | u :: rest, s, h => by
    rw [List.foldl_cons]
    apply foldl_dispatched_inv rest (stepUpd s u)
    rcases stepUpd_dispatched s u with hd | hd <;> rw [hd]
    · exact h
    · intro p hp
      rcases List.mem_append.mp hp with hp' | hp'
      · exact h p hp'
      · have hp2 := List.mem_singleton.mp hp'
        subst hp2
        rfl

theorem foldl_offset_gt :
    ∀ (us : List Upd) (s : LoopState),
      List.Chain' (· < ·) (us.map Upd.id) →
      ∀ u ∈ us, u.id < (us.foldl stepUpd s).offset
  | [], _, _ => by simp
  | u :: rest, s, h => by
    intro v hv
    rw [List.foldl_cons]
    rcases List.mem_cons.mp hv with rfl | hv'
    · cases rest with
      | nil =>
        rw [List.foldl_nil, stepUpd_offset]
        omega
      | cons w rest' =>
        have hw : v.id < w.id := by
          rw [List.map_cons, List.map_cons] at h
          exact (List.chain'_cons.mp h).1
        have htail : List.Chain' (· < ·) ((w :: rest').map Upd.id) := by
          rw [List.map_cons] at h
          exact h.tail
        exact Nat.lt_trans hw
          (foldl_offset_gt (w :: rest') (stepUpd s v) htail w
            (List.mem_cons_self _ _))
    · have htail : List.Chain' (· < ·) (rest.map Upd.id) := by
        rw [List.map_cons] at h
        exact h.tail
      exact foldl_offset_gt rest (stepUpd s u) htail v hv'

theorem foldl_processBatch :
    ∀ (bs : List (List Upd)) (s : LoopState),
      bs.foldl processBatch s = (concatAll bs).foldl stepUpd s
  | [], _ => rfl
  | b :: bs, s => by
    rw [List.foldl_cons, foldl_processBatch bs (processBatch s b)]
    show (concatAll bs).foldl stepUpd (b.foldl stepUpd s)
      = (b ++ concatAll bs).foldl stepUpd s
    rw [List.foldl_append]

/-- C1: in the ingestion loop, every dispatched message is dispatched
with the cursor already set to its identifier + 1; and for any sequence
of fetched batches whose identifiers are strictly increasing across the
whole run, the final cursor is strictly greater than every identifier
seen, and the successive cursor values never decrease. -/
theorem run_cursor_invariants (batches : List (List Upd))
    (h : List.Chain' (· < ·) ((concatAll batches).map Upd.id)) :
    (∀ p ∈ (runLoop batches).dispatched, p.1 = p.2 + 1)
    ∧ (∀ u ∈ concatAll batches, u.id < (runLoop batches).offset)
    ∧ List.Chain' (· ≤ ·) (0 :: (runLoop batches).trace) := by
  have he : runLoop batches = (concatAll batches).foldl stepUpd initState :=
    foldl_processBatch batches initState
  refine ⟨?_, ?_, ?_⟩
  · rw [he]
    exact foldl_dispatched_inv _ initState (by simp [initState])
  · intro u hu
    rw [he]
    exact foldl_offset_gt _ initState h u hu
  · rw [he, foldl_trace]
    have htr : (concatAll batches).Chain' (fun a b => a.id < b.id) :=
      (List.chain'_map Upd.id).mp h
    have h3 : List.Chain' (· ≤ ·)
        ((concatAll batches).map (fun u => u.id + 1)) :=
      (List.chain'_map _).mpr (htr.imp (fun a b hab => by omega))
    rw [List.chain'_cons']
    exact ⟨fun y _ => Nat.zero_le y, by simpa [initState] using h3⟩

/-- Witness for C1: a concrete two-batch run (with one skipped empty
message) with strictly increasing identifiers. -/
theorem run_cursor_invariants_witness :
    List.Chain' (· < ·)
      ((concatAll [[⟨1, "/help", some 5⟩],
                   [⟨3, "", some 5⟩, ⟨6, "hi", some 7⟩]]).map Upd.id)
    ∧ ((∀ p ∈ (runLoop [[⟨1, "/help", some 5⟩],
                        [⟨3, "", some 5⟩, ⟨6, "hi", some 7⟩]]).dispatched,
          p.1 = p.2 + 1)
       ∧ (∀ u ∈ concatAll [[⟨1, "/help", some 5⟩],
                           [⟨3, "", some 5⟩, ⟨6, "hi", some 7⟩]],
            u.id < (runLoop [[⟨1, "/help", some 5⟩],
                             [⟨3, "", some 5⟩, ⟨6, "hi", some 7⟩]]).offset)
       ∧ List.Chain' (· ≤ ·)
           (0 :: (runLoop [[⟨1, "/help", some 5⟩],
                           [⟨3, "", some 5⟩, ⟨6, "hi", some 7⟩]]).trace)) := by
  have hch : List.Chain' (· < ·)
      ((concatAll [[⟨1, "/help", some 5⟩],
                   [⟨3, "", some 5⟩, ⟨6, "hi", some 7⟩]]).map Upd.id) := by
    show List.Chain' (· < ·) [1, 3, 6]
    rw [List.chain'_cons, List.chain'_cons]
    exact ⟨by omega, by omega, List.Chain.nil⟩
  exact ⟨hch, run_cursor_invariants _ hch⟩

theorem cmdWeek_marker_count (d : Nat) :
    (cmdWeek d).countP (fun s => s.isToday)
      = if d % 7 = 0 ∨ d % 7 = 2 ∨ d % 7 = 4 ∨ d % 7 = 6 then 1 else 0 := by
  have i0 : (startOfWeek d + 0 = d) ↔ d % 7 = 0 := by unfold startOfWeek; omega
  have i2 : (startOfWeek d + 2 = d) ↔ d % 7 = 2 := by unfold startOfWeek; omega
  have i4 : (startOfWeek d + 4 = d) ↔ d % 7 = 4 := by unfold startOfWeek; omega
  have i6 : (startOfWeek d + 6 = d) ↔ d % 7 = 6 := by unfold startOfWeek; omega
  simp only [cmdWeek, schedule, List.map_cons, List.map_nil, List.countP_cons,
    List.countP_nil, decide_eq_true_eq, i0, i2, i4, i6]
  by_cases h0 : d % 7 = 0 <;> by_cases h2 : d % 7 = 2 <;>
    by_cases h4 : d % 7 = 4 <;> by_cases h6 : d % 7 = 6 <;>
    simp [h0, h2, h4, h6]

/-- C5: `cmd_week` emits exactly four slots, at offsets {0, 2, 4, 6}
from the Monday of the current week (`today − weekday`), each with its
static (format-recommendation, purpose) pair; it is a pure function of
the date (idempotent), and the "today" marker lands on exactly one slot
when today's weekday is Monday, Wednesday, Friday or Sunday
(`d % 7 ∈ {0, 2, 4, 6}` with day 0 a Monday) and on none otherwise. -/
theorem cmdWeek_schedule_spec (d : Nat) :
    (cmdWeek d).length = 4
    ∧ (cmdWeek d).map (fun s => s.date)
        = [startOfWeek d, startOfWeek d + 2, startOfWeek d + 4,
           startOfWeek d + 6]
    ∧ (cmdWeek d).map (fun s => (s.dayName, s.fmt, s.purpose))
        = [("Понедельник", "Д или Ж", "Юмор / POV — виральность и охват"),
           ("Среда", "А", "Боль — острый хук, проблема аудитории"),
           ("Пятница", "Е или Б", "Провокация / Образование — споры, сохранения"),
           ("Воскресенье", "В", "За кулисами — человечность, доверие")]
    ∧ startOfWeek d = d - d % 7
    ∧ startOfWeek d % 7 = 0 ∧ startOfWeek d ≤ d ∧ d < startOfWeek d + 7
    ∧ cmdWeek d = cmdWeek d
    ∧ ((d % 7 = 0 ∨ d % 7 = 2 ∨ d % 7 = 4 ∨ d % 7 = 6) →
        (cmdWeek d).countP (fun s => s.isToday) = 1)
    ∧ (¬ (d % 7 = 0 ∨ d % 7 = 2 ∨ d % 7 = 4 ∨ d % 7 = 6) →
        (cmdWeek d).countP (fun s => s.isToday) = 0) := by
  have hm : d - d % 7 = 7 * (d / 7) := by omega
  refine ⟨rfl, by simp [cmdWeek, schedule], by simp [cmdWeek, schedule],
    rfl, ?_, ?_, ?_, rfl, ?_, ?_⟩
  · unfold startOfWeek
    rw [hm]
    exact Nat.mul_mod_right 7 _
  · unfold startOfWeek
    omega
  · unfold startOfWeek
    omega
  · intro h
    rw [cmdWeek_marker_count, if_pos h]
  · intro h
    rw [cmdWeek_marker_count, if_neg h]

/-- Witness for C5: day 9 (a Wednesday, `9 % 7 = 2`) carries the marker
on exactly one slot; day 8 (a Tuesday) carries it on none. -/
theorem cmdWeek_schedule_spec_witness :
    ((9 : Nat) % 7 = 0 ∨ (9 : Nat) % 7 = 2 ∨ (9 : Nat) % 7 = 4
      ∨ (9 : Nat) % 7 = 6)
    ∧ (cmdWeek 9).countP (fun s => s.isToday) = 1
    ∧ ¬ ((8 : Nat) % 7 = 0 ∨ (8 : Nat) % 7 = 2 ∨ (8 : Nat) % 7 = 4
      ∨ (8 : Nat) % 7 = 6)
    ∧ (cmdWeek 8).countP (fun s => s.isToday) = 0 :=
  ⟨by decide,
   (cmdWeek_schedule_spec 9).2.2.2.2.2.2.2.2.1 (by decide),
   by decide,
   (cmdWeek_schedule_spec 8).2.2.2.2.2.2.2.2.2 (by decide)⟩

/-- C6: an `add` invocation whose category field (first pipe-separated
part, uppercased) is outside the known label set leaves the store
unchanged and never produces a success reply — the handler answers with
a validation message instead. -/
theorem cmdAdd_invalid_format_rejected (nowId nowDate args : String)
    (reels : List Reel)
    (h : FORMAT_NAMES.contains (addFmt args) = false) :
    (cmdAdd nowId nowDate args reels).2 = reels
    ∧ ∀ r, (cmdAdd nowId nowDate args reels).1 ≠ AddReply.added r := by
  simp only [cmdAdd]
  split_ifs with h1 h2 h3 h4 <;>
    first
    | exact ⟨rfl, by simp⟩
    | (rw [h3] at h
       exact absurd h (by decide))

/-- Witness for C6: the unknown label `Я` is rejected and the store is
untouched. -/
theorem cmdAdd_invalid_format_rejected_witness :
    FORMAT_NAMES.contains (addFmt "Я | ХУК") = false
    ∧ (cmdAdd "x" "d" "Я | ХУК" [exA1]).2 = [exA1]
    ∧ ∀ r, (cmdAdd "x" "d" "Я | ХУК" [exA1]).1 ≠ AddReply.added r :=
  ⟨by decide,
   (cmdAdd_invalid_format_rejected "x" "d" "Я | ХУК" [exA1] (by decide)).1,
   (cmdAdd_invalid_format_rejected "x" "d" "Я | ХУК" [exA1] (by decide)).2⟩

/-- C7 counterexample: the record appended by
`/add А | ХУК` has `days_live = 1`, so the unsupplied `days-live` field
does not default to 0 as the claim states. -/
theorem cmdAdd_days_live_cex :
    (cmdAdd "x" "d" "А | ХУК" []).1
      = AddReply.added { id := "x", date := "d", format := "А",
                         hook := "ХУК",
                         metrics := ⟨0, 0, 0, 0, 0, 0, 1⟩ }
    ∧ Metrics.days_live ⟨0, 0, 0, 0, 0, 0, 1⟩ ≠ 0 := by
  exact ⟨by decide, by decide⟩

/-- C7 (amended): every record appended by `add` has the fixed-shape
metrics structure whose five user-suppliable fields are the permissive
parses of pipe-parts 2–6 (absent parts parse as 0, as does any
non-numeric part), `reach` is 0 and `days_live` is 1; all fields are
non-negative integers by construction and parsing never raises. -/
theorem cmdAdd_metrics_shape (nowId nowDate args : String)
    (reels : List Reel) (r : Reel) (st : List Reel)
    (h : cmdAdd nowId nowDate args reels = (AddReply.added r, st)) :
    r.metrics = { views := partInt (addParts args) 2
                  likes := partInt (addParts args) 3
                  saves := partInt (addParts args) 4
                  shares := partInt (addParts args) 5
                  comments := partInt (addParts args) 6
                  reach := 0
                  days_live := 1 }
    ∧ (∀ i, (addParts args).length ≤ i → partInt (addParts args) i = 0)
    ∧ (∀ s : String, pyStripList s.toList = [] → pyInt s = 0)
    ∧ (∀ (s : String) (c : Char), c ∈ pyStripList s.toList →
        c.isDigit = false → pyInt s = 0) := by
  refine ⟨?_, ?_, ?_, ?_⟩
  · simp only [cmdAdd] at h
    split_ifs at h with h1 h2 h3 h4
    · exact absurd h (by simp)
    · exact absurd h (by simp)
    · exact absurd h (by simp)
    · injection h with h5 h6
      injection h5 with h7
      subst h7
      rfl
    · exact absurd h (by simp)
  · intro i hi
    unfold partInt
    rw [List.getD_eq_default _ _ hi]
    decide
  · intro s hs
    show (if pyStripList s.toList ≠ []
          ∧ (pyStripList s.toList).all Char.isDigit
        then digitsToNat (pyStripList s.toList) else 0) = 0
    rw [hs]
    simp
  · intro s c hc hdig
    show (if pyStripList s.toList ≠ []
          ∧ (pyStripList s.toList).all Char.isDigit
        then digitsToNat (pyStripList s.toList) else 0) = 0
    have hno : ¬ (pyStripList s.toList ≠ []
        ∧ (pyStripList s.toList).all Char.isDigit) := by
      rintro ⟨-, hall⟩
      exact absurd (List.all_eq_true.mp hall c hc) (by simp [hdig])
    rw [if_neg hno]

/-- Witness for C7 (amended): `/add А | ХУК | 12 | abc` appends a record
whose metrics are the permissive parses (12, then 0 for the non-numeric
`abc` and absent fields), with `reach = 0` and `days_live = 1`. -/
theorem cmdAdd_metrics_shape_witness :
    cmdAdd "x" "d" "А | ХУК | 12 | abc" []
      = (AddReply.added
           (Reel.mk "x" "d" "А" "ХУК" (Metrics.mk 12 0 0 0 0 0 1)),
         [Reel.mk "x" "d" "А" "ХУК" (Metrics.mk 12 0 0 0 0 0 1)])
    ∧ (Reel.mk "x" "d" "А" "ХУК" (Metrics.mk 12 0 0 0 0 0 1)).metrics
        = { views := partInt (addParts "А | ХУК | 12 | abc") 2
            likes := partInt (addParts "А | ХУК | 12 | abc") 3
            saves := partInt (addParts "А | ХУК | 12 | abc") 4
            shares := partInt (addParts "А | ХУК | 12 | abc") 5
            comments := partInt (addParts "А | ХУК | 12 | abc") 6
            reach := 0
            days_live := 1 } :=
  ⟨by decide,
   (cmdAdd_metrics_shape "x" "d" "А | ХУК | 12 | abc" []
     (Reel.mk "x" "d" "А" "ХУК" (Metrics.mk 12 0 0 0 0 0 1))
     [Reel.mk "x" "d" "А" "ХУК" (Metrics.mk 12 0 0 0 0 0 1)]
     (by decide)).1⟩

theorem lookup_none_of_forall_ne {β : Type} (k : String) :
    ∀ (l : List (String × β)), (∀ p ∈ l, p.1 ≠ k) → List.lookup k l = none
  | [], _ => rfl
  | (a, b) :: rest, h => by
    have ha : a ≠ k := h (a, b) (List.mem_cons_self _ _)
    have hk : (k == a) = false := by
      simp [Ne.symm ha]
    simp [List.lookup, hk,
      lookup_none_of_forall_ne k rest
        (fun p hp => h p (List.mem_cons_of_mem _ hp))]

/-- C8 counterexample: two distinct unknown tokens produce two distinct
reply strings — the unknown-command guidance embeds the token, so it is
not the same string for every unknown token. -/
theorem dispatch_unknown_cex :
    dispatch "/foo" = .unknown (unknownMsg "/foo")
    ∧ dispatch "/bar" = .unknown (unknownMsg "/bar")
    ∧ unknownMsg "/foo" ≠ unknownMsg "/bar" :=
  ⟨by decide, by decide, by decide⟩

/-- C8 (amended): for every inbound text that starts (after stripping)
with the command prefix and whose token is not in the command table,
`dispatch` returns the fixed-shape unknown-command guidance built from
the token, and never raises (the embedding is total). -/
theorem dispatch_unknown_reply (text : String)
    (hs : (pyStrip text).toList.headD ' ' = '/')
    (hu : ∀ p ∈ commandTable, p.1 ≠ cmdToken text) :
    dispatch text = .unknown (unknownMsg (cmdToken text)) := by
  simp only [dispatch]
  rw [if_pos hs, lookup_none_of_forall_ne (cmdToken text) commandTable hu]

/-- Witness for C8 (amended): the unknown token `/оно`. -/
theorem dispatch_unknown_reply_witness :
    (pyStrip "/оно").toList.headD ' ' = '/'
    ∧ (∀ p ∈ commandTable, p.1 ≠ cmdToken "/оно")
    ∧ dispatch "/оно" = .unknown (unknownMsg (cmdToken "/оно")) :=
  ⟨by decide, by decide,
   dispatch_unknown_reply "/оно" (by decide) (by decide)⟩

/-- C9 counterexample: `cmd_script` invoked with the empty argument does
not return usage text — it substitutes the default format `А` and
performs its normal generation action. -/
theorem cmdScript_empty_arg_cex : cmdScript "" = ScriptReply.generate "А" := by
  decide

/-- C9 (amended): of the argument-requiring commands, `reel`, `hook`,
`analyze`, `cover` and `add` return their command-specific usage text on
an empty argument string; `script` instead substitutes the default
format `А` and performs its normal generation action. -/
theorem usage_on_missing_argument (hasKey : Bool) (nowId nowDate : String)
    (reels : List Reel) :
    cmdReel "" = .usage ∧ cmdHooks "" = .usage ∧ cmdAnalyze "" = .usage
    ∧ cmdCover hasKey "" = .usage
    ∧ (cmdAdd nowId nowDate "" reels).1 = .usage
    ∧ cmdScript "" = .generate "А" :=
  ⟨rfl, rfl, rfl, rfl, rfl, rfl⟩

/-- C10: `cmd_cover` with a pipe-free non-blank argument uses the whole
(stripped) argument as the hook with format defaulting to `А`; with a
piped argument whose format token is unknown it silently falls back to
format `А` and still generates — unlike `cmd_add`, which rejects the
same unknown token with a validation message. -/
theorem cmdCover_default_format (args : String) :
    (∀ a, coverParts args = [a] → ¬ pyStrip args = "" →
      cmdCover true args = .generated "А" (pyStrip args))
    ∧ (∀ a b, coverParts args = [a, b] → ¬ pyStrip args = "" →
        FORMAT_NAMES.contains (pyUpper a) = false → ¬ b = "" →
        cmdCover true args = .generated "А" b)
    ∧ (cmdAdd "x" "d" "Я | ХУК" []).1 = AddReply.unknownFormat "Я" := by
  refine ⟨?_, ?_, by decide⟩
  · intro a hp hne
    simp [cmdCover, hp, hne]
  · intro a b hp hne hcontains hb
    have hmem : ¬ (pyUpper a ∈ FORMAT_NAMES) := by simpa using hcontains
    simp [cmdCover, hp, hne, hcontains, hmem, hb]

/-- Witness for C10: `/cover Я | ХУК` generates with the fallback format
`А` although `Я` is unknown, and `/cover ПРИВЕТ` uses the whole argument
as the hook. -/
theorem cmdCover_default_format_witness :
    coverParts "Я | ХУК" = ["Я", "ХУК"]
    ∧ FORMAT_NAMES.contains (pyUpper "Я") = false
    ∧ cmdCover true "Я | ХУК" = .generated "А" "ХУК"
    ∧ coverParts "ПРИВЕТ" = ["ПРИВЕТ"]
    ∧ cmdCover true "ПРИВЕТ" = .generated "А" (pyStrip "ПРИВЕТ") :=
  ⟨by decide, by decide,
   (cmdCover_default_format "Я | ХУК").2.1 "Я" "ХУК" (by decide) (by decide)
     (by decide) (by decide),
   by decide,
   (cmdCover_default_format "ПРИВЕТ").1 "ПРИВЕТ" (by decide) (by decide)⟩

end ProdigyBot
